import Mathlib

/-!
Verification of the Gomoku (15×15 five-in-a-row) server core.

This file shallowly embeds the Rust sources of the repository:
`src/chess/src/lib.rs` (Board, check_winner, make_move, is_full),
`src/chess/src/ai.rs` (AIPlayer: evaluate_position, simulate_move, make_move)
and `src/chess/src/main.rs` (Game: the session coordinator with an optional
AI controller).  Rust's in-place mutation is modelled by returning the new
state next to the result; the per-channel broadcast fan-out is modelled by a
single list of emitted messages (one entry per broadcast call).
-/

/-- The two player roles, from `PlayerRole` in lib.rs. -/
inductive PlayerRole where
  | Black
  | White
deriving DecidableEq

/-- Role swap, from `PlayerRole::other` in lib.rs. -/
def PlayerRole.other : PlayerRole → PlayerRole
  | .Black => .White
  | .White => .Black

/-- Error taxonomy, from the `GameError` enum in lib.rs. -/
inductive GameError where
  | InvalidInput : String → GameError
  | InvalidPosition : String → GameError
  | PositionOccupied : String → GameError
  | InvalidMove : String → GameError
deriving DecidableEq

instance {ε α : Type} [DecidableEq ε] [DecidableEq α] : DecidableEq (Except ε α) :=
  fun a b =>
    match a, b with
    | .ok x, .ok y => decidable_of_iff (x = y) (by simp)
    | .error x, .error y => decidable_of_iff (x = y) (by simp)
    | .ok _, .error _ => isFalse (by simp)
    | .error _, .ok _ => isFalse (by simp)

/-- Board state, from the `Board` struct in lib.rs: a 15×15 grid of optional
marks plus the role holding the turn. -/
structure Board where
  cells : Fin 15 → Fin 15 → Option PlayerRole
  current_player : PlayerRole

instance : DecidableEq Board := fun a b =>
  decidable_of_iff (a.cells = b.cells ∧ a.current_player = b.current_player)
    (by cases a; cases b; simp)

/-- Fresh board, from `Board::new` in lib.rs: all cells empty, Black to move. -/
def Board.new : Board :=
  { cells := fun _ _ => none, current_player := .Black }

/-- Guarded cell read at signed coordinates.  The Rust scans first test
`r < 0 || r >= 15 || c < 0 || c >= 15` and only then index the array; this
function bundles that guard with the read (out of bounds reads as `none`,
which the loops treat exactly like the corresponding break/skip). -/
def cellAt (b : Board) (r c : Int) : Option PlayerRole :=
  if h : 0 ≤ r ∧ r < 15 ∧ 0 ≤ c ∧ c < 15 then
    b.cells ⟨r.toNat, by omega⟩ ⟨c.toNat, by omega⟩
  else none

/-- The four axis directions scanned by `Board::check_winner` in lib.rs. -/
def directions : List (Int × Int) := [(0, 1), (1, 0), (1, 1), (1, -1)]

/-- One directional arm of the winner scan in `Board::check_winner`: starting
from `(r, c)` it steps up to `fuel` (in the source: 4) times by `(dr, dc)`,
counting consecutive cells equal to `some p`, and stops at the first
out-of-bounds or non-matching cell. -/
def runLen (b : Board) (p : PlayerRole) (dr dc : Int) : Nat → Int → Int → Nat
  | 0, _, _ => 0
  | fuel + 1, r, c =>
    if cellAt b (r + dr) (c + dc) = some p then
      1 + runLen b p dr dc fuel (r + dr) (c + dc)
    else 0

/-- Total line count through `(r, c)` in direction `d`, as accumulated by
`Board::check_winner`: the cell itself plus the forward and backward arms. -/
def lineCount (b : Board) (p : PlayerRole) (r c : Int) (d : Int × Int) : Nat :=
  1 + runLen b p d.1 d.2 4 r c + runLen b p (-d.1) (-d.2) 4 r c

/-- Per-cell body of the winner scan: if the cell is occupied and some
direction reaches a total count of 5, that cell's owner is reported. -/
def cellWin (b : Board) (r c : Fin 15) : Option PlayerRole :=
  match b.cells r c with
  | none => none
  | some player =>
    if ∃ d ∈ directions, 5 ≤ lineCount b player (r.val : Int) (c.val : Int) d then
      some player
    else none

/-- All cells in row-major order, the iteration order of the nested
`for row in 0..15 { for col in 0..15 { ... } }` loops. -/
def allPairs : List (Fin 15 × Fin 15) :=
  (List.finRange 15).flatMap (fun r => (List.finRange 15).map (fun c => (r, c)))

/-- Winner detection, from `Board::check_winner` in lib.rs: the owner of the
first cell in row-major order through which some direction carries a run of
at least 5, or `none`. -/
def Board.check_winner (b : Board) : Option PlayerRole :=
  allPairs.findSome? (fun rc => cellWin b rc.1 rc.2)

/-- Fullness test, from `Board::is_full` in lib.rs. -/
def Board.is_full (b : Board) : Bool :=
  (List.finRange 15).all (fun r => (List.finRange 15).all (fun c => (b.cells r c).isSome))

/-- Move application, from `Board::make_move` in lib.rs.  The Rust method
mutates in place and returns `Result<(), GameError>`; here the updated board
is returned next to the result (on the error paths the source returns before
touching any field, so the input board is returned unchanged). -/
def Board.make_move (b : Board) (row col : Nat) : Except GameError Unit × Board :=
  if h : 15 ≤ row ∨ 15 ≤ col then
    (.error (.InvalidPosition ("行和列必须在 0-14 之间，你输入的是 (" ++ toString row
      ++ ", " ++ toString col ++ ")")), b)
  else
    if (b.cells ⟨row, by omega⟩ ⟨col, by omega⟩).isSome then
      (.error (.PositionOccupied ("位置 (" ++ toString row ++ ", " ++ toString col
        ++ ") 已经被占用")), b)
    else
      (.ok (),
        { cells := fun i j =>
            if i = (⟨row, by omega⟩ : Fin 15) ∧ j = (⟨col, by omega⟩ : Fin 15) then
              some b.current_player
            else b.cells i j,
          current_player := b.current_player.other })

/-- Spec-side run predicate: starting at on-board cell `(r0, c0)`, the five
cells stepping by `d` all hold `some p` (out-of-bounds cells read `none`, so
the whole run is forced on the board). -/
def hasRunAt (b : Board) (p : PlayerRole) (r c : Int) (d : Int × Int) : Prop :=
  ∀ i : Fin 5, cellAt b (r + (i.val : Int) * d.1) (c + (i.val : Int) * d.2) = some p

instance (b : Board) (p : PlayerRole) (r c : Int) (d : Int × Int) :
    Decidable (hasRunAt b p r c d) := by
  unfold hasRunAt; infer_instance

/-- Spec-side winning condition for `p`: some axis direction carries a run of
5 consecutive cells marked `p` (its first cell is necessarily on the board,
hence the `Fin 15` start). -/
def hasRun (b : Board) (p : PlayerRole) : Prop :=
  ∃ d ∈ directions, ∃ r0 c0 : Fin 15, hasRunAt b p (r0.val : Int) (c0.val : Int) d

instance (b : Board) (p : PlayerRole) : Decidable (hasRun b p) := by
  unfold hasRun; infer_instance

/-- Board with a single Black run on row 0 (used as a concrete witness). -/
def winBoard : Board :=
  { cells := fun r c => if r.val = 0 ∧ c.val ≤ 4 then some .Black else none,
    current_player := .White }

/-- Board on which both players own a full run: Black on row 0, White on
row 1 (used as a concrete counterexample). -/
def doubleWinBoard : Board :=
  { cells := fun r c =>
      if r.val = 0 ∧ c.val ≤ 4 then some .Black
      else if r.val = 1 ∧ c.val ≤ 4 then some .White
      else none,
    current_player := .Black }

/-- Running state of the per-direction pattern scan in
`AIPlayer::evaluate_position` (ai.rs): the mutable locals `count`, `empty`,
`blocked` and `consecutive` of the two `for i in 1..5` loops. -/
structure ScanState where
  count : Nat
  empty : Nat
  blocked : Nat
  consecutive : Bool
deriving DecidableEq

/-- One arm of the pattern scan in `AIPlayer::evaluate_position`: steps up to
`fuel` (in the source: 4) times by `(dr, dc)` from `(r, c)`.  Out of bounds
increments `blocked` and breaks; an own mark increments `count` only while
`consecutive`; an empty cell increments `empty` and re-arms `consecutive`;
an opponent mark increments `blocked` and clears `consecutive`. -/
def scanLoop (b : Board) (player : PlayerRole) (dr dc : Int) :
    Nat → Int → Int → ScanState → ScanState
  | 0, _, _, st => st
  | fuel + 1, r, c, st =>
    if 0 ≤ r + dr ∧ r + dr < 15 ∧ 0 ≤ c + dc ∧ c + dc < 15 then
      match cellAt b (r + dr) (c + dc) with
      | some p =>
        if p = player then
          scanLoop b player dr dc fuel (r + dr) (c + dc)
            { st with count := if st.consecutive then st.count + 1 else st.count }
        else
          scanLoop b player dr dc fuel (r + dr) (c + dc)
            { st with blocked := st.blocked + 1, consecutive := false }
      | none =>
        scanLoop b player dr dc fuel (r + dr) (c + dc)
          { st with empty := st.empty + 1, consecutive := true }
    else { st with blocked := st.blocked + 1 }

/-- Pattern score of a finished direction scan, from the
`if count >= 4 { ... } else if ...` ladder in `AIPlayer::evaluate_position`. -/
def dirScore (st : ScanState) : Int :=
  if 4 ≤ st.count then 100000
  else if st.count = 3 ∧ 1 ≤ st.empty then 10000
  else if st.count = 2 ∧ 2 ≤ st.empty then 1000
  else 0

/-- Heuristic cell evaluation, from `AIPlayer::evaluate_position` in ai.rs:
positional bias towards the centre, adjacency bias over the four positive
direction neighbours, and the per-direction pattern score (the backward scan
continues with the forward scan's counters, re-arming only `consecutive`). -/
def evaluate_position (b : Board) (row col : Nat) (player : PlayerRole) : Int :=
  let distance_to_center : Int := |(row : Int) - 7| + |(col : Int) - 7|
  let positional : Int := (10 - distance_to_center) * 10
  let adj : Int × Int := directions.foldl (fun acc d =>
      match cellAt b ((row : Int) + d.1) ((col : Int) + d.2) with
      | some p => if p = player then (acc.1 + 1, acc.2) else (acc.1, acc.2 + 1)
      | none => acc) (0, 0)
  let patterns : Int := directions.foldl (fun acc d =>
      let st1 := scanLoop b player d.1 d.2 4 (row : Int) (col : Int)
        { count := 0, empty := 0, blocked := 0, consecutive := true }
      let st2 := scanLoop b player (-d.1) (-d.2) 4 (row : Int) (col : Int)
        { st1 with consecutive := true }
      acc + dirScore st2) 0
  positional + adj.1 * 50 - adj.2 * 30 + patterns

/-- Depth-limited look-ahead, from `AIPlayer::simulate_move` in ai.rs: the
cell's own evaluation minus half of the best opponent reply, recursing over
every empty cell with the roles swapped (the move is never actually placed
on the board). -/
def simulate_move (b : Board) (row col : Nat) (player : PlayerRole) : Nat → Int
  | 0 => evaluate_position b row col player
  | depth + 1 =>
    let score := evaluate_position b row col player
    let best : Int := allPairs.foldl (fun best rc =>
        if b.cells rc.1 rc.2 = none then
          max best (simulate_move b rc.1.val rc.2.val player.other depth)
        else best) 0
    score - best / 2

/-- Step 1 of `AIPlayer::make_move`: the first empty cell in row-major order
whose attack evaluation for `player` reaches the 100000 threshold. -/
def attackScan (b : Board) (player : PlayerRole) : Option (Nat × Nat) :=
  allPairs.findSome? (fun rc =>
    if b.cells rc.1 rc.2 = none ∧ 100000 ≤ evaluate_position b rc.1.val rc.2.val player
    then some (rc.1.val, rc.2.val) else none)

/-- Step 2 of `AIPlayer::make_move`: the first empty cell in row-major order
whose evaluation for the opponent reaches 100000 or 10000 (the source tests
`defense_score >= 100000 || defense_score >= 10000`). -/
def defenseScan (b : Board) (opponent : PlayerRole) : Option (Nat × Nat) :=
  allPairs.findSome? (fun rc =>
    if b.cells rc.1 rc.2 = none ∧
        (100000 ≤ evaluate_position b rc.1.val rc.2.val opponent ∨
          10000 ≤ evaluate_position b rc.1.val rc.2.val opponent)
    then some (rc.1.val, rc.2.val) else none)

/-- One iteration of step 3 of `AIPlayer::make_move`: keep the move if its
total score strictly improves on the best so far. -/
def searchStep (b : Board) (player : PlayerRole) (depth : Nat)
    (acc : Int × Option (Nat × Nat)) (rc : Fin 15 × Fin 15) : Int × Option (Nat × Nat) :=
  if b.cells rc.1 rc.2 = none then
    let total := simulate_move b rc.1.val rc.2.val player depth
    if acc.1 < total then (total, some (rc.1.val, rc.2.val)) else acc
  else acc

/-- Step 3 of `AIPlayer::make_move`: fold over all cells keeping the best
strict improvement over the initial score of -1. -/
def searchBest (b : Board) (player : PlayerRole) (depth : Nat) :
    Int × Option (Nat × Nat) :=
  allPairs.foldl (searchStep b player depth) (-1, none)

/-- The AI actor, from the `AIPlayer` struct in ai.rs (the shared game handle
is runtime wiring and not part of the move computation). -/
structure AIPlayer where
  player : PlayerRole
  depth : Nat
deriving DecidableEq

/-- Constructor, from `AIPlayer::new`: fixed search depth 3. -/
def AIPlayer.new (player : PlayerRole) : AIPlayer :=
  { player := player, depth := 3 }

/-- Move selection, from `AIPlayer::make_move` in ai.rs: immediate-win scan,
then defensive scan for the opponent, then best-scoring search. -/
def AIPlayer.make_move (ai : AIPlayer) (b : Board) : Except GameError (Nat × Nat) :=
  match attackScan b ai.player with
  | some rc => .ok rc
  | none =>
    match defenseScan b ai.player.other with
    | some rc => .ok rc
    | none =>
      match (searchBest b ai.player ai.depth).2 with
      | some rc => .ok rc
      | none => .error (.InvalidMove "没有可用的位置")

/-- Board update used to state hypothetical-placement properties. -/
def placeAt (b : Board) (r c : Fin 15) (p : PlayerRole) : Board :=
  { b with cells := fun i j => if i = r ∧ j = c then some p else b.cells i j }

/-- Spec-side notion for C2: an empty cell that completes a run of 5 for `p`
when marked for `p`. -/
def winningCell (b : Board) (p : PlayerRole) (rc : Fin 15 × Fin 15) : Prop :=
  b.cells rc.1 rc.2 = none ∧ hasRun (placeAt b rc.1 rc.2 p) p

instance (b : Board) (p : PlayerRole) (rc : Fin 15 × Fin 15) :
    Decidable (winningCell b p rc) := by
  unfold winningCell; infer_instance

/-- Row-major ordinal of a cell. -/
def rmIdx (rc : Fin 15 × Fin 15) : Nat := rc.1.val * 15 + rc.2.val

/-- Spec-side open four (glossary of the spec): four consecutive cells marked
`p` starting at `(r, c)` along `d`, with at least one empty extension cell. -/
def openFourAt (b : Board) (p : PlayerRole) (r c : Int) (d : Int × Int) : Prop :=
  (∀ i : Fin 4, cellAt b (r + (i.val : Int) * d.1) (c + (i.val : Int) * d.2) = some p) ∧
  (cellAt b (r - d.1) (c - d.2) = none ∨ cellAt b (r + 4 * d.1) (c + 4 * d.2) = none)

instance (b : Board) (p : PlayerRole) (r c : Int) (d : Int × Int) :
    Decidable (openFourAt b p r c d) := by
  unfold openFourAt; infer_instance

/-- Spec-side: `p` owns an open four somewhere on the board. -/
def openFour (b : Board) (p : PlayerRole) : Prop :=
  ∃ d ∈ directions, ∃ r0 c0 : Fin 15, openFourAt b p (r0.val : Int) (c0.val : Int) d

instance (b : Board) (p : PlayerRole) : Decidable (openFour b p) := by
  unfold openFour; infer_instance

/-- Spec-side condition of the claimed blocking rule: some empty cell, marked
for `p`, would give `p` a 5-in-a-row or an open four. -/
def opponentWinOrOpenFourCell (b : Board) (p : PlayerRole) : Prop :=
  ∃ rc : Fin 15 × Fin 15, b.cells rc.1 rc.2 = none ∧
    (hasRun (placeAt b rc.1 rc.2 p) p ∨ openFour (placeAt b rc.1 rc.2 p) p)

instance (b : Board) (p : PlayerRole) : Decidable (opponentWinOrOpenFourCell b p) := by
  unfold opponentWinOrOpenFourCell; infer_instance

/-- A run of 5 passing through the cell `x` (start offset `j` backwards). -/
def runThrough (b : Board) (p : PlayerRole) (x : Fin 15 × Fin 15) : Prop :=
  ∃ d ∈ directions, ∃ j : Fin 5,
    hasRunAt b p ((x.1.val : Int) - (j.val : Int) * d.1)
      ((x.2.val : Int) - (j.val : Int) * d.2) d

instance (b : Board) (p : PlayerRole) (x : Fin 15 × Fin 15) :
    Decidable (runThrough b p x) := by
  unfold runThrough; infer_instance

/-- An open four whose four marks pass through the cell `x`. -/
def fourThrough (b : Board) (p : PlayerRole) (x : Fin 15 × Fin 15) : Prop :=
  ∃ d ∈ directions, ∃ j : Fin 4,
    openFourAt b p ((x.1.val : Int) - (j.val : Int) * d.1)
      ((x.2.val : Int) - (j.val : Int) * d.2) d

instance (b : Board) (p : PlayerRole) (x : Fin 15 × Fin 15) :
    Decidable (fourThrough b p x) := by
  unfold fourThrough; infer_instance

/-- Concrete board for the C2 counterexample: the only empty cells are (0,0)
(completing Black's column-0 four) and (7,2) (completing Black's row-7
four), and everything else is White.  The corner cell (0,0) carries the full
positional penalty and two adjacent White marks, which drags its attack
evaluation to 99950, just under the 100000 threshold. -/
def attackBoard : Board :=
  { cells := fun r c =>
      if (r.val = 0 ∧ c.val = 0) ∨ (r.val = 7 ∧ c.val = 2) then none
      else if (1 ≤ r.val ∧ r.val ≤ 4) ∧ c.val = 0 then some .Black
      else if r.val = 7 ∧ 3 ≤ c.val ∧ c.val ≤ 6 then some .Black
      else some .White,
    current_player := .Black }

/-- Concrete board where Black's four on row 0 makes (0,0) the first cell to
reach the attack threshold. -/
def winFifthBoard : Board :=
  { cells := fun r c =>
      if r.val = 0 ∧ 1 ≤ c.val ∧ c.val ≤ 4 then some .Black
      else if r.val = 1 ∧ (c.val = 10 ∨ c.val = 12 ∨ c.val = 14) then some .White
      else none,
    current_player := .Black }

/-- Concrete board for the C3 counterexample: White's three on row 7 is
hemmed in by Black at (7,6) and (7,11), so no empty cell gives White a
5-in-a-row or an open four (the filler colouring has no run longer than 3);
yet the cell (7,10) scores `count == 3 && empty >= 1` for White — the
empties (7,12)-(7,14) lie beyond the Black block — and triggers the
defensive scan. -/
def defenseBoard : Board :=
  { cells := fun r c =>
      if r.val = 7 ∧ (c.val = 10 ∨ c.val = 12 ∨ c.val = 13 ∨ c.val = 14) then none
      else if r.val = 7 ∧ (c.val = 6 ∨ c.val = 11) then some .Black
      else if r.val = 7 ∧ 7 ≤ c.val ∧ c.val ≤ 9 then some .White
      else if (2 * r.val + c.val) % 4 < 2 then some .Black
      else some .White,
    current_player := .Black }

/-- Concrete board for the C4 counterexample: every cell occupied except the
corner (0,0), with an anti-run colouring; the lone legal move evaluates below
the -1 initial best score, so the search keeps no move. -/
def nearFullBoard : Board :=
  { cells := fun r c =>
      if r.val = 0 ∧ c.val = 0 then none
      else if (2 * r.val + c.val) % 4 < 2 then some .Black
      else some .White,
    current_player := .Black }

/-- Completely full board (all Black marks). -/
def fullBlackBoard : Board :=
  { cells := fun _ _ => some .Black, current_player := .Black }

/-- Protocol messages, from the `GameMessage` enum in lib.rs (the `Status`
payload carries the board grid and the player to move). -/
inductive GameMessage where
  | ConnectRequest : String → GameMessage
  | ConnectResponse : String → PlayerRole → GameMessage
  | Move : Nat → Nat → GameMessage
  | Error : String → GameMessage
  | GameOver : Option PlayerRole → GameMessage
  | Status : (Fin 15 → Fin 15 → Option PlayerRole) → PlayerRole → GameMessage
  | TurnNotification : PlayerRole → GameMessage
  | PlayerDisconnected : PlayerRole → GameMessage
  | PlayerConnected : PlayerRole → String → GameMessage
  | ServerShutdown : GameMessage
deriving DecidableEq

/-- Session coordinator state, from the `Game` struct in main.rs: the board,
the set of connected human participants (the keys of the channel map — the
channel values are runtime wiring), and the optional AI controller. -/
structure Game where
  board : Board
  players : PlayerRole → Bool
  ai_player : Option AIPlayer

/-- Number of connected human participants (`self.players.len()`). -/
def numPlayersFun (f : PlayerRole → Bool) : Nat :=
  (if f .Black then 1 else 0) + (if f .White then 1 else 0)

/-- Participant count of a coordinator state. -/
def Game.numPlayers (g : Game) : Nat := numPlayersFun g.players

/-- Spec-side phrase "two active actors": two humans, or one human plus a
bound AI controller. -/
def twoActors (g : Game) : Prop :=
  g.numPlayers = 2 ∨ (g.numPlayers = 1 ∧ g.ai_player ≠ none)

/-- Move handling, from `Game::make_move` in main.rs.  Mutation is modelled
by returning the new state; each broadcast to the participant channels is
modelled as one entry of the returned message list.  The source checks the
participant count, then turn ownership, applies the board move, broadcasts
`Move` and `Status`, then checks the winner and fullness (broadcasting
`GameOver` when terminal); otherwise, when an AI controller is bound, it
computes and applies the AI reply inline and re-checks the outcome, the
second board call propagating its error with `?`. -/
def Game.make_move (g : Game) (player : PlayerRole) (row col : Nat) :
    Except GameError Unit × Game × List GameMessage :=
  if g.numPlayers < 2 ∧ g.ai_player = none then
    (.error (.InvalidInput "等待另一个玩家加入"), g, [])
  else if g.board.current_player ≠ player then
    (.error (.InvalidInput "不是你的回合"), g, [])
  else
    match Board.make_move g.board row col with
    | (.error e, _) => (.error e, g, [])
    | (.ok _, b1) =>
      match b1.check_winner with
      | some w =>
        (.ok (), { g with board := b1 },
          [.Move row col, .Status b1.cells b1.current_player, .GameOver (some w)])
      | none =>
        if b1.is_full then
          (.ok (), { g with board := b1 },
            [.Move row col, .Status b1.cells b1.current_player, .GameOver none])
        else
          match g.ai_player with
          | none =>
            (.ok (), { g with board := b1 },
              [.Move row col, .Status b1.cells b1.current_player])
          | some ai =>
            match ai.make_move b1 with
            | .error _ =>
              (.ok (), { g with board := b1 },
                [.Move row col, .Status b1.cells b1.current_player])
            | .ok (r2, c2) =>
              match Board.make_move b1 r2 c2 with
              | (.error e, _) =>
                (.error e, { g with board := b1 },
                  [.Move row col, .Status b1.cells b1.current_player])
              | (.ok _, b2) =>
                match b2.check_winner with
                | some w =>
                  (.ok (), { g with board := b2 },
                    [.Move row col, .Status b1.cells b1.current_player,
                      .Move r2 c2, .Status b2.cells b2.current_player,
                      .GameOver (some w)])
                | none =>
                  if b2.is_full then
                    (.ok (), { g with board := b2 },
                      [.Move row col, .Status b1.cells b1.current_player,
                        .Move r2 c2, .Status b2.cells b2.current_player,
                        .GameOver none])
                  else
                    (.ok (), { g with board := b2 },
                      [.Move row col, .Status b1.cells b1.current_player,
                        .Move r2 c2, .Status b2.cells b2.current_player])

/-- Participant removal, from `Game::remove_player` in main.rs: drop the
channel, notify the remaining participants, and when nobody is left reset
the board and clear the AI controller. -/
def Game.remove_player (g : Game) (player : PlayerRole) : Game × List GameMessage :=
  if numPlayersFun (fun q => if q = player then false else g.players q) = 0 then
    ({ board := Board.new,
       players := fun q => if q = player then false else g.players q,
       ai_player := none },
      [.PlayerDisconnected player])
  else
    ({ g with players := fun q => if q = player then false else g.players q },
      [.PlayerDisconnected player])

/-- Concrete board one move away from a Black win on row 0. -/
def preWinBoard : Board :=
  { cells := fun r c =>
      if r.val = 0 ∧ c.val ≤ 3 then some .Black
      else if r.val = 1 ∧ c.val ≤ 2 then some .White
      else none,
    current_player := .Black }

/-- Coordinator state with two humans about to finish the game. -/
def preWinGame : Game :=
  { board := preWinBoard, players := fun _ => true, ai_player := none }

/-- Coordinator state with two humans on a fresh board. -/
def freshGame : Game :=
  { board := Board.new, players := fun _ => true, ai_player := none }

/-- Coordinator state with a single human (Black) and no AI. -/
def soloGame : Game :=
  { board := preWinBoard, players := fun q => q = .Black, ai_player := none }

/-! Helper lemmas about the winner scan. -/

theorem cellAt_coe (b : Board) (r c : Fin 15) :
    cellAt b (r.val : Int) (c.val : Int) = b.cells r c := by
  have h1 := r.isLt
  have h2 := c.isLt
  unfold cellAt
  rw [dif_pos (by omega)]
  congr 1 <;> apply Fin.ext <;> simp

theorem cellAt_some_bounds {b : Board} {r c : Int} {p : PlayerRole}
    (h : cellAt b r c = some p) : 0 ≤ r ∧ r < 15 ∧ 0 ≤ c ∧ c < 15 := by
  by_contra hn
  unfold cellAt at h
  rw [dif_neg hn] at h
  exact Option.noConfusion h

theorem runLen_mem (b : Board) (p : PlayerRole) (dr dc : Int) :
    ∀ (fuel : Nat) (r c : Int) (i : Nat), 1 ≤ i → i ≤ runLen b p dr dc fuel r c →
      cellAt b (r + (i : Int) * dr) (c + (i : Int) * dc) = some p := by
  intro fuel
  induction fuel with
  | zero =>
    intro r c i h1 h2
    simp only [runLen] at h2
    omega
  | succ n ih =>
    intro r c i h1 h2
    unfold runLen at h2
    by_cases h : cellAt b (r + dr) (c + dc) = some p
    · rw [if_pos h] at h2
      cases i with
      | zero => omega
      | succ i1 =>
        cases i1 with
        | zero => simpa using h
        | succ k =>
          have hk : k + 1 ≤ runLen b p dr dc n (r + dr) (c + dc) := by omega
          have hmem := ih (r + dr) (c + dc) (k + 1) (by omega) hk
          convert hmem using 2 <;> push_cast <;> ring
    · rw [if_neg h] at h2
      omega

theorem runLen_ge (b : Board) (p : PlayerRole) (dr dc : Int) :
    ∀ (fuel k : Nat) (r c : Int), k ≤ fuel →
      (∀ i : Nat, 1 ≤ i → i ≤ k →
        cellAt b (r + (i : Int) * dr) (c + (i : Int) * dc) = some p) →
      k ≤ runLen b p dr dc fuel r c := by
  intro fuel
  induction fuel with
  | zero =>
    intro k r c hk _
    omega
  | succ n ih =>
    intro k r c hk hall
    cases k with
    | zero => omega
    | succ k1 =>
      have h1 : cellAt b (r + dr) (c + dc) = some p := by
        have := hall 1 (by omega) (by omega)
        simpa using this
      unfold runLen
      rw [if_pos h1]
      have hrec : k1 ≤ runLen b p dr dc n (r + dr) (c + dc) := by
        apply ih k1 (r + dr) (c + dc) (by omega)
        intro i hi1 hi2
        have := hall (i + 1) (by omega) (by omega)
        convert this using 2 <;> push_cast <;> ring
      omega

theorem runSpan (b : Board) (p : PlayerRole) (d : Int × Int) (R C : Int)
    (hc : cellAt b R C = some p) (j : Int)
    (hj1 : -(runLen b p (-d.1) (-d.2) 4 R C : Int) ≤ j)
    (hj2 : j ≤ (runLen b p d.1 d.2 4 R C : Int)) :
    cellAt b (R + j * d.1) (C + j * d.2) = some p := by
  rcases lt_trichotomy j 0 with hneg | hzero | hpos
  · have hi1 : 1 ≤ (-j).toNat := by omega
    have hi2 : (-j).toNat ≤ runLen b p (-d.1) (-d.2) 4 R C := by omega
    have hmem := runLen_mem b p (-d.1) (-d.2) 4 R C (-j).toNat hi1 hi2
    convert hmem using 2 <;>
      rw [show (((-j).toNat : Nat) : Int) = -j by omega] <;> ring
  · subst hzero
    simpa using hc
  · have hi1 : 1 ≤ j.toNat := by omega
    have hi2 : j.toNat ≤ runLen b p d.1 d.2 4 R C := by omega
    have hmem := runLen_mem b p d.1 d.2 4 R C j.toNat hi1 hi2
    convert hmem using 2 <;>
      rw [show ((j.toNat : Nat) : Int) = j by omega] <;> ring

theorem lineCount_run (b : Board) (p : PlayerRole) (r c : Fin 15) (d : Int × Int)
    (hd : d ∈ directions) (hcell : b.cells r c = some p)
    (h5 : 5 ≤ lineCount b p (r.val : Int) (c.val : Int) d) : hasRun b p := by
  have hc0 : cellAt b (r.val : Int) (c.val : Int) = some p := by
    rw [cellAt_coe]; exact hcell
  have hkm : 4 ≤ runLen b p d.1 d.2 4 (r.val : Int) (c.val : Int)
      + runLen b p (-d.1) (-d.2) 4 (r.val : Int) (c.val : Int) := by
    unfold lineCount at h5
    omega
  set m := runLen b p (-d.1) (-d.2) 4 (r.val : Int) (c.val : Int) with hm
  have hrun0 : ∀ i : Fin 5,
      cellAt b ((r.val : Int) + (-(m : Int)) * d.1 + (i.val : Int) * d.1)
        ((c.val : Int) + (-(m : Int)) * d.2 + (i.val : Int) * d.2) = some p := by
    intro i
    have hi := i.isLt
    have h := runSpan b p d (r.val : Int) (c.val : Int) hc0 (-(m : Int) + (i.val : Int))
      (by omega) (by omega)
    convert h using 2 <;> ring
  have h0 : cellAt b ((r.val : Int) + (-(m : Int)) * d.1)
      ((c.val : Int) + (-(m : Int)) * d.2) = some p := by
    have := hrun0 ⟨0, by omega⟩
    simpa using this
  obtain ⟨hb1, hb2, hb3, hb4⟩ := cellAt_some_bounds h0
  refine ⟨d, hd, ⟨((r.val : Int) + (-(m : Int)) * d.1).toNat, by omega⟩,
    ⟨((c.val : Int) + (-(m : Int)) * d.2).toNat, by omega⟩, ?_⟩
  intro i
  have hR : ((((r.val : Int) + (-(m : Int)) * d.1).toNat : Nat) : Int)
      = (r.val : Int) + (-(m : Int)) * d.1 := by omega
  have hC : ((((c.val : Int) + (-(m : Int)) * d.2).toNat : Nat) : Int)
      = (c.val : Int) + (-(m : Int)) * d.2 := by omega
  show cellAt b _ _ = some p
  rw [hR, hC]
  exact hrun0 i

theorem findSome?_split {α β : Type} (f : α → Option β) :
    ∀ (l : List α) (y : β), l.findSome? f = some y →
      ∃ l1 a l2, l = l1 ++ a :: l2 ∧ f a = some y ∧ ∀ x ∈ l1, f x = none := by
  intro l
  induction l with
  | nil => intro y h; simp [List.findSome?] at h
  | cons a as ih =>
    intro y h
    rw [List.findSome?_cons] at h
    cases hfa : f a with
    | some b =>
      rw [hfa] at h
      refine ⟨[], a, as, by simp, ?_, by simp⟩
      simpa [hfa] using h
    | none =>
      rw [hfa] at h
      obtain ⟨l1, x, l2, hsplit, hx, hnone⟩ := ih y h
      refine ⟨a :: l1, x, l2, by simp [hsplit], hx, ?_⟩
      intro z hz
      rcases List.mem_cons.mp hz with hz | hz
      · subst hz; exact hfa
      · exact hnone z hz

theorem mem_allPairs (rc : Fin 15 × Fin 15) : rc ∈ allPairs := by
  rcases rc with ⟨r, c⟩
  simp [allPairs, List.mem_flatMap, List.mem_map, List.mem_finRange]

theorem check_winner_ne_none {b : Board} {p : PlayerRole}
    (h : hasRun b p) : b.check_winner ≠ none := by
  obtain ⟨d, hd, r0, c0, hrun⟩ := h
  intro hnone
  have hcell : b.cells r0 c0 = some p := by
    have := hrun ⟨0, by omega⟩
    rw [← cellAt_coe b r0 c0]
    simpa using this
  have hfwd : 4 ≤ runLen b p d.1 d.2 4 (r0.val : Int) (c0.val : Int) := by
    apply runLen_ge b p d.1 d.2 4 4 (r0.val : Int) (c0.val : Int) (le_refl 4)
    intro i hi1 hi2
    exact hrun ⟨i, by omega⟩
  have h5 : 5 ≤ lineCount b p (r0.val : Int) (c0.val : Int) d := by
    unfold lineCount
    omega
  have hwin : cellWin b r0 c0 = some p := by
    unfold cellWin
    rw [hcell]
    exact if_pos ⟨d, hd, h5⟩
  rw [Board.check_winner, List.findSome?_eq_none_iff] at hnone
  have := hnone (r0, c0) (mem_allPairs _)
  rw [hwin] at this
  exact Option.noConfusion this

theorem hasRun_of_check_winner {b : Board} {p : PlayerRole}
    (h : b.check_winner = some p) : hasRun b p := by
  obtain ⟨l1, a, l2, hsplit, ha, hnone⟩ := findSome?_split _ allPairs p h
  unfold cellWin at ha
  cases hc : b.cells a.1 a.2 with
  | none =>
    rw [hc] at ha
    exact Option.noConfusion ha
  | some q =>
    rw [hc] at ha
    dsimp only at ha
    by_cases hex : ∃ d ∈ directions, 5 ≤ lineCount b q (a.1.val : Int) (a.2.val : Int) d
    · obtain ⟨d, hd, h5⟩ := hex
      have hq : q = p := by
        rw [if_pos ⟨d, hd, h5⟩] at ha
        exact Option.some.inj ha
      subst hq
      exact lineCount_run b q a.1 a.2 d hd hc h5
    · rw [if_neg hex] at ha
      exact Option.noConfusion ha

theorem other_of_ne {p q : PlayerRole} (h : q ≠ p) : q = p.other := by
  revert h
  cases p <;> cases q <;> decide

/-- C1 (amended): for every board, `check_winner` returns `none` iff no
player has a run of at least 5; any returned player does have such a run;
whenever exactly one player has a run, that player is returned; and the
empty board yields `none`.  (The original claim's full iff fails only when
both players simultaneously own runs, where the row-major scan order picks
the winner — see the counterexample.) -/
theorem check_winner_run_spec :
    (∀ b : Board,
      (b.check_winner = none ↔ ∀ p, ¬ hasRun b p) ∧
      (∀ p, b.check_winner = some p → hasRun b p) ∧
      (∀ p, hasRun b p → ¬ hasRun b p.other → b.check_winner = some p)) ∧
    Board.new.check_winner = none := by
  constructor
  · intro b
    refine ⟨⟨?_, ?_⟩, ?_, ?_⟩
    · intro hnone p hp
      exact check_winner_ne_none hp hnone
    · intro hall
      cases hw : b.check_winner with
      | none => rfl
      | some p => exact absurd (hasRun_of_check_winner hw) (hall p)
    · intro p hw
      exact hasRun_of_check_winner hw
    · intro p hp hnot
      cases hw : b.check_winner with
      | none => exact absurd hw (check_winner_ne_none hp)
      | some q =>
        have hq : hasRun b q := hasRun_of_check_winner hw
        by_cases hqp : q = p
        · exact congrArg some hqp
        · exact absurd (other_of_ne hqp ▸ hq) hnot
  · decide

/-- C1 counterexample: on a board where both players have a full run, the
scan returns Black (the first hit in row-major order) even though White also
has a run, so the claimed iff (`Some(p)` iff player `p` has a run) and the
claimed scan-order independence both fail. -/
theorem check_winner_both_runs_counterexample :
    doubleWinBoard.check_winner = some PlayerRole.Black ∧
    hasRun doubleWinBoard PlayerRole.White ∧
    doubleWinBoard.check_winner ≠ some PlayerRole.White := by
  refine ⟨by decide, by decide, by decide⟩

/-- Witness for `check_winner_run_spec` at a concrete board with a single
Black run: both hypothesis-bearing implications fire. -/
theorem check_winner_run_spec_witness :
    hasRun winBoard PlayerRole.Black ∧ winBoard.check_winner = some PlayerRole.Black := by
  have h3 := (check_winner_run_spec.1 winBoard).2.2 PlayerRole.Black (by decide) (by decide)
  have h2 := (check_winner_run_spec.1 winBoard).2.1 PlayerRole.Black h3
  exact ⟨h2, h3⟩

set_option maxRecDepth 10000 in
theorem allPairs_pairwise :
    List.Pairwise (fun x y => rmIdx x < rmIdx y) allPairs := by
  decide

theorem findSome?_first {β : Type} (f : Fin 15 × Fin 15 → Option β) (y : β)
    (h : allPairs.findSome? f = some y) :
    ∃ a : Fin 15 × Fin 15, f a = some y ∧
      ∀ z : Fin 15 × Fin 15, rmIdx z < rmIdx a → f z = none := by
  obtain ⟨l1, a, l2, hsplit, ha, hnone⟩ := findSome?_split f allPairs y h
  refine ⟨a, ha, ?_⟩
  intro z hz
  have hpw := allPairs_pairwise
  rw [hsplit] at hpw
  have h2 := (List.pairwise_append.mp hpw).2.1
  have hmem : z ∈ allPairs := mem_allPairs z
  rw [hsplit] at hmem
  rcases List.mem_append.mp hmem with hin | hin
  · exact hnone z hin
  · rcases List.mem_cons.mp hin with heq | hin
    · subst heq; exact absurd hz (by omega)
    · have := (List.pairwise_cons.mp h2).1 z hin
      exact absurd hz (by omega)

theorem make_move_eq_attack (b : Board) (p : PlayerRole) (v : Nat × Nat)
    (h : attackScan b p = some v) : (AIPlayer.new p).make_move b = .ok v := by
  show (match attackScan b p with
    | some rc => (.ok rc : Except GameError (Nat × Nat))
    | none =>
      match defenseScan b p.other with
      | some rc => .ok rc
      | none =>
        match (searchBest b p 3).2 with
        | some rc => .ok rc
        | none => .error (.InvalidMove "没有可用的位置")) = .ok v
  rw [h]

theorem make_move_eq_defense (b : Board) (p : PlayerRole) (v : Nat × Nat)
    (h1 : attackScan b p = none) (h2 : defenseScan b p.other = some v) :
    (AIPlayer.new p).make_move b = .ok v := by
  show (match attackScan b p with
    | some rc => (.ok rc : Except GameError (Nat × Nat))
    | none =>
      match defenseScan b p.other with
      | some rc => .ok rc
      | none =>
        match (searchBest b p 3).2 with
        | some rc => .ok rc
        | none => .error (.InvalidMove "没有可用的位置")) = .ok v
  rw [h1]
  show (match defenseScan b p.other with
    | some rc => (.ok rc : Except GameError (Nat × Nat))
    | none =>
      match (searchBest b p 3).2 with
      | some rc => .ok rc
      | none => .error (.InvalidMove "没有可用的位置")) = .ok v
  rw [h2]

theorem make_move_eq_search (b : Board) (p : PlayerRole)
    (h1 : attackScan b p = none) (h2 : defenseScan b p.other = none) :
    (AIPlayer.new p).make_move b =
      (match (searchBest b p 3).2 with
        | some rc => .ok rc
        | none => .error (.InvalidMove "没有可用的位置")) := by
  show (match attackScan b p with
    | some rc => (.ok rc : Except GameError (Nat × Nat))
    | none =>
      match defenseScan b p.other with
      | some rc => .ok rc
      | none =>
        match (searchBest b p 3).2 with
        | some rc => .ok rc
        | none => .error (.InvalidMove "没有可用的位置")) = _
  rw [h1]
  show (match defenseScan b p.other with
    | some rc => (.ok rc : Except GameError (Nat × Nat))
    | none =>
      match (searchBest b p 3).2 with
      | some rc => .ok rc
      | none => .error (.InvalidMove "没有可用的位置")) = _
  rw [h2]

theorem attackScan_first (b : Board) (p : PlayerRole) (v : Nat × Nat)
    (h : attackScan b p = some v) :
    ∃ rc : Fin 15 × Fin 15, v = (rc.1.val, rc.2.val) ∧
      b.cells rc.1 rc.2 = none ∧
      100000 ≤ evaluate_position b rc.1.val rc.2.val p ∧
      ∀ z : Fin 15 × Fin 15, rmIdx z < rmIdx rc → b.cells z.1 z.2 = none →
        evaluate_position b z.1.val z.2.val p < 100000 := by
  obtain ⟨a, ha, hfirst⟩ := findSome?_first _ v h
  by_cases hc : b.cells a.1 a.2 = none ∧ 100000 ≤ evaluate_position b a.1.val a.2.val p
  · rw [if_pos hc] at ha
    refine ⟨a, (Option.some.inj ha).symm, hc.1, hc.2, ?_⟩
    intro z hz hznone
    by_contra hge
    have hzn := hfirst z hz
    rw [if_pos ⟨hznone, by omega⟩] at hzn
    exact Option.noConfusion hzn
  · rw [if_neg hc] at ha
    exact Option.noConfusion ha

theorem defenseScan_first (b : Board) (q : PlayerRole) (v : Nat × Nat)
    (h : defenseScan b q = some v) :
    ∃ rc : Fin 15 × Fin 15, v = (rc.1.val, rc.2.val) ∧
      b.cells rc.1 rc.2 = none ∧
      10000 ≤ evaluate_position b rc.1.val rc.2.val q ∧
      ∀ z : Fin 15 × Fin 15, rmIdx z < rmIdx rc → b.cells z.1 z.2 = none →
        evaluate_position b z.1.val z.2.val q < 10000 := by
  obtain ⟨a, ha, hfirst⟩ := findSome?_first _ v h
  by_cases hc : b.cells a.1 a.2 = none ∧
      (100000 ≤ evaluate_position b a.1.val a.2.val q ∨
        10000 ≤ evaluate_position b a.1.val a.2.val q)
  · rw [if_pos hc] at ha
    refine ⟨a, (Option.some.inj ha).symm, hc.1,
      by rcases hc.2 with hx | hx <;> omega, ?_⟩
    intro z hz hznone
    by_contra hge
    have hzn := hfirst z hz
    rw [if_pos ⟨hznone, Or.inr (by omega)⟩] at hzn
    exact Option.noConfusion hzn
  · rw [if_neg hc] at ha
    exact Option.noConfusion ha

/-- C2 (amended): whenever some empty cell reaches the attack threshold
(evaluation ≥ 100000 for the acting role, as computed by
`evaluate_position`), `AIPlayer::make_move` returns the first such cell in
row-major order.  A four-in-a-row with an open fifth cell normally produces
such a cell, but the threshold — not the spec-side winning-cell property —
decides: a true winning cell can evaluate below 100000 (corner positional
penalty plus adjacent opponent marks), so the returned cell need not be the
row-major-first winning cell (see the counterexample). -/
theorem ai_attack_first_threshold (b : Board) (p : PlayerRole) (v : Nat × Nat)
    (h : attackScan b p = some v) :
    (AIPlayer.new p).make_move b = .ok v ∧
    ∃ rc : Fin 15 × Fin 15, v = (rc.1.val, rc.2.val) ∧
      b.cells rc.1 rc.2 = none ∧
      100000 ≤ evaluate_position b rc.1.val rc.2.val p ∧
      ∀ z : Fin 15 × Fin 15, rmIdx z < rmIdx rc → b.cells z.1 z.2 = none →
        evaluate_position b z.1.val z.2.val p < 100000 :=
  ⟨make_move_eq_attack b p v h, attackScan_first b p v h⟩

/-- C2 counterexample: on `attackBoard` the AI (Black) returns (7,2), yet
(0,0) is also a winning cell for Black and strictly earlier in row-major
order — the immediate-win scan skipped it because its evaluation is 99950. -/
theorem ai_attack_not_first_winning_cell :
    (AIPlayer.new PlayerRole.Black).make_move attackBoard = .ok (7, 2) ∧
    winningCell attackBoard PlayerRole.Black (0, 0) ∧
    winningCell attackBoard PlayerRole.Black (7, 2) ∧
    rmIdx (0, 0) < rmIdx (7, 2) ∧
    evaluate_position attackBoard 0 0 PlayerRole.Black = 99950 := by
  exact ⟨by decide, by decide, by decide, by decide, by decide⟩

/-- Witness for `ai_attack_first_threshold` on a concrete board whose first
threshold cell is (0,0). -/
theorem ai_attack_first_threshold_witness :
    (AIPlayer.new PlayerRole.Black).make_move winFifthBoard = .ok (0, 0) :=
  (ai_attack_first_threshold winFifthBoard PlayerRole.Black (0, 0) (by decide)).1

theorem cellAt_placeAt (b : Board) (x1 x2 : Fin 15) (p : PlayerRole) (r c : Int) :
    cellAt (placeAt b x1 x2 p) r c =
      if r = (x1.val : Int) ∧ c = (x2.val : Int) then some p else cellAt b r c := by
  have hb1 := x1.isLt
  have hb2 := x2.isLt
  unfold cellAt placeAt
  by_cases h : 0 ≤ r ∧ r < 15 ∧ 0 ≤ c ∧ c < 15
  · rw [dif_pos h, dif_pos h]
    dsimp only
    by_cases hx : r = (x1.val : Int) ∧ c = (x2.val : Int)
    · rw [if_pos hx, if_pos]
      refine ⟨?_, ?_⟩ <;> apply Fin.ext <;> simp <;> omega
    · rw [if_neg hx, if_neg]
      intro hcon
      apply hx
      have h1 := congrArg Fin.val hcon.1
      have h2 := congrArg Fin.val hcon.2
      simp at h1 h2
      omega
  · rw [dif_neg h, dif_neg h, if_neg]
    intro hx
    exact h (by omega)

theorem run_place_cases (b : Board) (x : Fin 15 × Fin 15) (p : PlayerRole)
    (hrun : hasRun (placeAt b x.1 x.2 p) p) :
    runThrough (placeAt b x.1 x.2 p) p x ∨ hasRun b p := by
  obtain ⟨d, hd, r0, c0, hr⟩ := hrun
  by_cases hth : ∃ i : Fin 5,
      (r0.val : Int) + (i.val : Int) * d.1 = (x.1.val : Int) ∧
      (c0.val : Int) + (i.val : Int) * d.2 = (x.2.val : Int)
  · left
    obtain ⟨i, hi1, hi2⟩ := hth
    refine ⟨d, hd, i, ?_⟩
    have e1 : (x.1.val : Int) - (i.val : Int) * d.1 = (r0.val : Int) := by linarith
    have e2 : (x.2.val : Int) - (i.val : Int) * d.2 = (c0.val : Int) := by linarith
    rw [e1, e2]
    exact hr
  · right
    refine ⟨d, hd, r0, c0, ?_⟩
    intro i
    have hri := hr i
    rw [cellAt_placeAt] at hri
    rw [if_neg] at hri
    · exact hri
    · intro hcon
      exact hth ⟨i, hcon.1, hcon.2⟩

theorem four_place_cases (b : Board) (x : Fin 15 × Fin 15) (p : PlayerRole)
    (hfour : openFour (placeAt b x.1 x.2 p) p) :
    fourThrough (placeAt b x.1 x.2 p) p x ∨ openFour b p := by
  obtain ⟨d, hd, r0, c0, hcells, hext⟩ := hfour
  have hnone : ∀ er ec : Int, cellAt (placeAt b x.1 x.2 p) er ec = none →
      cellAt b er ec = none := by
    intro er ec hn
    rw [cellAt_placeAt] at hn
    by_cases he : er = (x.1.val : Int) ∧ ec = (x.2.val : Int)
    · rw [if_pos he] at hn
      exact Option.noConfusion hn
    · rwa [if_neg he] at hn
  by_cases hth : ∃ i : Fin 4,
      (r0.val : Int) + (i.val : Int) * d.1 = (x.1.val : Int) ∧
      (c0.val : Int) + (i.val : Int) * d.2 = (x.2.val : Int)
  · left
    obtain ⟨i, hi1, hi2⟩ := hth
    refine ⟨d, hd, i, ?_⟩
    have e1 : (x.1.val : Int) - (i.val : Int) * d.1 = (r0.val : Int) := by linarith
    have e2 : (x.2.val : Int) - (i.val : Int) * d.2 = (c0.val : Int) := by linarith
    rw [e1, e2]
    exact ⟨hcells, hext⟩
  · right
    refine ⟨d, hd, r0, c0, ?_, ?_⟩
    · intro i
      have hri := hcells i
      rw [cellAt_placeAt] at hri
      rw [if_neg] at hri
      · exact hri
      · intro hcon
        exact hth ⟨i, hcon.1, hcon.2⟩
    · rcases hext with hn | hn
      · exact Or.inl (hnone _ _ hn)
      · exact Or.inr (hnone _ _ hn)

/-- C3 (amended): when the attack scan finds nothing and some empty cell's
evaluation for the opponent reaches the 10000 defensive threshold,
`AIPlayer::make_move` returns the first such cell in row-major order.  The
threshold fires on `count == 3 && empty >= 1` under the scan's gap-tolerant
counting, so the blocking condition is not equivalent to "the opponent could
make a 5-in-a-row or an open four": the scan can also block closed or gapped
three/four patterns (see the counterexample). -/
theorem ai_defense_first_threshold (b : Board) (p : PlayerRole) (v : Nat × Nat)
    (h1 : attackScan b p = none) (h2 : defenseScan b p.other = some v) :
    (AIPlayer.new p).make_move b = .ok v ∧
    ∃ rc : Fin 15 × Fin 15, v = (rc.1.val, rc.2.val) ∧
      b.cells rc.1 rc.2 = none ∧
      10000 ≤ evaluate_position b rc.1.val rc.2.val p.other ∧
      ∀ z : Fin 15 × Fin 15, rmIdx z < rmIdx rc → b.cells z.1 z.2 = none →
        evaluate_position b z.1.val z.2.val p.other < 10000 :=
  ⟨make_move_eq_defense b p v h1 h2, defenseScan_first b p.other v h2⟩

set_option maxRecDepth 100000 in
set_option maxHeartbeats 2000000 in
/-- C3 counterexample: on `defenseBoard` no empty cell would give White a
5-in-a-row or an open four (White's three is hemmed in on both sides), yet
the AI's defensive step still diverts to the blocking cell (7,10). -/
theorem ai_defense_blocks_closed_four :
    (AIPlayer.new PlayerRole.Black).make_move defenseBoard = .ok (7, 10) ∧
    ¬ opponentWinOrOpenFourCell defenseBoard PlayerRole.White := by
  constructor
  · decide
  · rintro ⟨rc, hempty, hcase⟩
    rcases hcase with hrun | hfour
    · rcases run_place_cases defenseBoard rc PlayerRole.White hrun with hth | hold
      · have hall : ∀ z : Fin 15 × Fin 15, defenseBoard.cells z.1 z.2 = none →
            ¬ runThrough (placeAt defenseBoard z.1 z.2 PlayerRole.White)
              PlayerRole.White z := by decide
        exact hall rc hempty hth
      · exact absurd hold (by decide)
    · rcases four_place_cases defenseBoard rc PlayerRole.White hfour with hth | hold
      · have hall : ∀ z : Fin 15 × Fin 15, defenseBoard.cells z.1 z.2 = none →
            ¬ fourThrough (placeAt defenseBoard z.1 z.2 PlayerRole.White)
              PlayerRole.White z := by decide
        exact hall rc hempty hth
      · exact absurd hold (by decide)

set_option maxRecDepth 100000 in
set_option maxHeartbeats 2000000 in
/-- Witness for `ai_defense_first_threshold` at `defenseBoard`, whose first
defensive threshold cell is (7,10). -/
theorem ai_defense_first_threshold_witness :
    (AIPlayer.new PlayerRole.Black).make_move defenseBoard = .ok (7, 10) :=
  (ai_defense_first_threshold defenseBoard PlayerRole.Black (7, 10)
    (by decide) (by decide)).1

theorem is_full_spec (b : Board) :
    b.is_full = true ↔ ∀ i j : Fin 15, ¬ b.cells i j = none := by
  unfold Board.is_full
  simp [List.all_eq_true, List.mem_finRange, Option.isSome_iff_ne_none]

theorem foldl_searchStep_skip (b : Board) (p : PlayerRole) (depth : Nat) :
    ∀ (l : List (Fin 15 × Fin 15)) (acc : Int × Option (Nat × Nat)),
      (∀ rc ∈ l, ¬ b.cells rc.1 rc.2 = none) →
      l.foldl (searchStep b p depth) acc = acc := by
  intro l
  induction l with
  | nil => intro acc _; rfl
  | cons a as ih =>
    intro acc h
    rw [List.foldl_cons]
    rw [show searchStep b p depth acc a = acc from by
      unfold searchStep; rw [if_neg (h a (List.mem_cons_self a as))]]
    exact ih acc (fun rc hrc => h rc (List.mem_cons_of_mem a hrc))

theorem foldl_searchStep_some (b : Board) (p : PlayerRole) (depth : Nat) :
    ∀ (l : List (Fin 15 × Fin 15)) (acc : Int × Option (Nat × Nat)) (v : Nat × Nat),
      (∀ w, acc.2 = some w →
        ∃ rc : Fin 15 × Fin 15, w = (rc.1.val, rc.2.val) ∧ b.cells rc.1 rc.2 = none) →
      (l.foldl (searchStep b p depth) acc).2 = some v →
      ∃ rc : Fin 15 × Fin 15, v = (rc.1.val, rc.2.val) ∧ b.cells rc.1 rc.2 = none := by
  intro l
  induction l with
  | nil =>
    intro acc v hacc h
    exact hacc v h
  | cons a as ih =>
    intro acc v hacc h
    rw [List.foldl_cons] at h
    apply ih _ v _ h
    intro w hw
    simp only [searchStep] at hw
    by_cases hc : b.cells a.1 a.2 = none
    · rw [if_pos hc] at hw
      by_cases hlt : acc.1 < simulate_move b a.1.val a.2.val p depth
      · rw [if_pos hlt] at hw
        exact ⟨a, (Option.some.inj hw).symm, hc⟩
      · rw [if_neg hlt] at hw
        exact hacc w hw
    · rw [if_neg hc] at hw
      exact hacc w hw

/-- C4 (amended): on every full board `AIPlayer::make_move` fails with the
no-legal-move error, and every successful result is an empty cell of the
board.  But a board with an empty cell is not guaranteed a success: step 3
keeps a move only if its total score strictly exceeds the initial best of
-1, so when every empty cell scores ≤ -1 the error is returned despite
legal moves existing (see the counterexample). -/
theorem ai_make_move_totality (b : Board) (p : PlayerRole) :
    (b.is_full = true →
      (AIPlayer.new p).make_move b = .error (.InvalidMove "没有可用的位置")) ∧
    (∀ v : Nat × Nat, (AIPlayer.new p).make_move b = .ok v →
      ∃ rc : Fin 15 × Fin 15, v = (rc.1.val, rc.2.val) ∧ b.cells rc.1 rc.2 = none) := by
  constructor
  · intro hfull
    have hne : ∀ i j : Fin 15, ¬ b.cells i j = none := (is_full_spec b).mp hfull
    have h1 : attackScan b p = none := by
      unfold attackScan
      rw [List.findSome?_eq_none_iff]
      intro rc _
      rw [if_neg (fun hcon => hne rc.1 rc.2 hcon.1)]
    have h2 : defenseScan b p.other = none := by
      unfold defenseScan
      rw [List.findSome?_eq_none_iff]
      intro rc _
      rw [if_neg (fun hcon => hne rc.1 rc.2 hcon.1)]
    have h3 : (searchBest b p 3).2 = none := by
      unfold searchBest
      rw [foldl_searchStep_skip b p 3 allPairs _ (fun rc _ => hne rc.1 rc.2)]
    rw [make_move_eq_search b p h1 h2, h3]
  · intro v hv
    cases ha : attackScan b p with
    | some w =>
      have heq := (make_move_eq_attack b p w ha).symm.trans hv
      have hwv : w = v := by injection heq
      subst hwv
      obtain ⟨rc, hrc, hempty, _, _⟩ := attackScan_first b p w ha
      exact ⟨rc, hrc, hempty⟩
    | none =>
      cases hd : defenseScan b p.other with
      | some w =>
        have heq := (make_move_eq_defense b p w ha hd).symm.trans hv
        have hwv : w = v := by injection heq
        subst hwv
        obtain ⟨rc, hrc, hempty, _, _⟩ := defenseScan_first b p.other w hd
        exact ⟨rc, hrc, hempty⟩
      | none =>
        have heq := (make_move_eq_search b p ha hd).symm.trans hv
        cases hs : (searchBest b p 3).2 with
        | some w =>
          rw [hs] at heq
          have hwv : w = v := by injection heq
          subst hwv
          exact foldl_searchStep_some b p 3 allPairs (-1, none) w
            (fun w hw => Option.noConfusion hw) hs
        | none =>
          rw [hs] at heq
          exact Except.noConfusion heq

set_option maxRecDepth 100000 in
set_option maxHeartbeats 2000000 in
/-- C4 counterexample: `nearFullBoard` has the empty corner (0,0), yet
`AIPlayer::make_move` returns the no-legal-move error because the lone legal
move scores below the initial best of -1. -/
theorem ai_rejects_nonfull_board :
    (AIPlayer.new PlayerRole.Black).make_move nearFullBoard
      = .error (.InvalidMove "没有可用的位置") ∧
    nearFullBoard.is_full = false ∧
    nearFullBoard.cells 0 0 = none := by
  exact ⟨by decide, by decide, by decide⟩

set_option maxRecDepth 100000 in
set_option maxHeartbeats 2000000 in
/-- Witness for `ai_make_move_totality`: the full board yields the error,
and a successful move on `winFifthBoard` lands on an empty cell. -/
theorem ai_make_move_totality_witness :
    (AIPlayer.new PlayerRole.Black).make_move fullBlackBoard
      = .error (.InvalidMove "没有可用的位置") ∧
    (∃ rc : Fin 15 × Fin 15, ((0 : Nat), (0 : Nat)) = (rc.1.val, rc.2.val) ∧
      winFifthBoard.cells rc.1 rc.2 = none) :=
  ⟨(ai_make_move_totality fullBlackBoard PlayerRole.Black).1 (by decide),
    (ai_make_move_totality winFifthBoard PlayerRole.Black).2 (0, 0) (by decide)⟩

theorem make_move_cases (b : Board) (row col : Nat) :
    (∃ s, Board.make_move b row col = (.error (.InvalidPosition s), b) ∧ (15 ≤ row ∨ 15 ≤ col)) ∨
    (∃ (s : String) (hr : row < 15) (hc : col < 15),
      Board.make_move b row col = (.error (.PositionOccupied s), b) ∧
      (b.cells ⟨row, hr⟩ ⟨col, hc⟩).isSome = true) ∨
    (∃ (hr : row < 15) (hc : col < 15),
      b.cells ⟨row, hr⟩ ⟨col, hc⟩ = none ∧
      Board.make_move b row col =
        (.ok (),
          { cells := fun i j =>
              if i = (⟨row, hr⟩ : Fin 15) ∧ j = (⟨col, hc⟩ : Fin 15) then
                some b.current_player
              else b.cells i j,
            current_player := b.current_player.other })) := by
  by_cases h : 15 ≤ row ∨ 15 ≤ col
  · left
    have heq : Board.make_move b row col =
        (.error (.InvalidPosition ("行和列必须在 0-14 之间，你输入的是 (" ++ toString row
          ++ ", " ++ toString col ++ ")")), b) := by
      unfold Board.make_move
      rw [dif_pos h]
    exact ⟨_, heq, h⟩
  · have hr : row < 15 := by omega
    have hc : col < 15 := by omega
    by_cases h2 : (b.cells ⟨row, hr⟩ ⟨col, hc⟩).isSome = true
    · right; left
      have heq : Board.make_move b row col =
          (.error (.PositionOccupied ("位置 (" ++ toString row ++ ", " ++ toString col
            ++ ") 已经被占用")), b) := by
        unfold Board.make_move
        rw [dif_neg h]
        rw [if_pos h2]
      exact ⟨_, hr, hc, heq, h2⟩
    · right; right
      refine ⟨hr, hc, ?_, ?_⟩
      · exact Option.not_isSome_iff_eq_none.mp h2
      · unfold Board.make_move
        rw [dif_neg h]
        rw [if_neg h2]

/-- C5: every rejected move (out of bounds or occupied target) leaves the
board completely unchanged, and repeating the same invalid call on the
unchanged board reproduces exactly the same error with no state change. -/
theorem board_reject_idempotent (b : Board) (row col : Nat) (e : GameError)
    (h : (Board.make_move b row col).1 = .error e) :
    (Board.make_move b row col).2 = b ∧
    Board.make_move ((Board.make_move b row col).2) row col = (.error e, b) := by
  rcases make_move_cases b row col with ⟨s, heq, _⟩ | ⟨s, hr, hc, heq, _⟩ | ⟨hr, hc, hnone, heq⟩
  · rw [heq] at h
    have he : GameError.InvalidPosition s = e := Except.error.inj h
    constructor
    · rw [heq]
    · rw [heq]
      show Board.make_move b row col = (.error e, b)
      rw [heq, ← he]
  · rw [heq] at h
    have he : GameError.PositionOccupied s = e := Except.error.inj h
    constructor
    · rw [heq]
    · rw [heq]
      show Board.make_move b row col = (.error e, b)
      rw [heq, ← he]
  · rw [heq] at h
    exact Except.noConfusion h

/-- Witness for `board_reject_idempotent` at the out-of-bounds call (20,3)
on the fresh board. -/
theorem board_reject_idempotent_witness :
    ∃ e, (Board.make_move Board.new 20 3).1 = .error e ∧
      (Board.make_move Board.new 20 3).2 = Board.new ∧
      Board.make_move ((Board.make_move Board.new 20 3).2) 20 3 = (.error e, Board.new) := by
  refine ⟨.InvalidPosition ("行和列必须在 0-14 之间，你输入的是 (" ++ toString 20
    ++ ", " ++ toString 3 ++ ")"), rfl, ?_⟩
  exact board_reject_idempotent Board.new 20 3 _ rfl

/-- C6: a successful `Board::make_move` changes exactly the addressed cell,
from empty to the mover's mark, and flips `current_player`; every failed
call leaves the whole board (cells and turn) unchanged. -/
theorem board_move_frame (b : Board) (row col : Nat) :
    ((Board.make_move b row col).1 = .ok () →
      ∃ (hr : row < 15) (hc : col < 15),
        b.cells ⟨row, hr⟩ ⟨col, hc⟩ = none ∧
        (Board.make_move b row col).2.cells ⟨row, hr⟩ ⟨col, hc⟩ = some b.current_player ∧
        (∀ i j : Fin 15, ¬(i.val = row ∧ j.val = col) →
          (Board.make_move b row col).2.cells i j = b.cells i j) ∧
        (Board.make_move b row col).2.current_player = b.current_player.other) ∧
    (∀ e : GameError, (Board.make_move b row col).1 = .error e →
      (Board.make_move b row col).2 = b) := by
  rcases make_move_cases b row col with ⟨s, heq, _⟩ | ⟨s, hr, hc, heq, _⟩ | ⟨hr, hc, hnone, heq⟩
  · constructor
    · intro h
      rw [heq] at h
      exact Except.noConfusion h
    · intro e _
      rw [heq]
  · constructor
    · intro h
      rw [heq] at h
      exact Except.noConfusion h
    · intro e _
      rw [heq]
  · constructor
    · intro _
      refine ⟨hr, hc, hnone, ?_, ?_, ?_⟩
      · rw [heq]
        dsimp
        rw [if_pos ⟨rfl, rfl⟩]
      · intro i j hij
        rw [heq]
        dsimp
        rw [if_neg]
        intro hcon
        exact hij ⟨by rw [hcon.1], by rw [hcon.2]⟩
      · rw [heq]
    · intro e he
      rw [heq] at he
      exact Except.noConfusion he

/-- Witness for `board_move_frame`: the successful first move at (7,7) and a
failed out-of-bounds move at (20,20). -/
theorem board_move_frame_witness :
    (∃ (hr : (7 : Nat) < 15) (hc : (7 : Nat) < 15),
      Board.new.cells ⟨7, hr⟩ ⟨7, hc⟩ = none ∧
      (Board.make_move Board.new 7 7).2.cells ⟨7, hr⟩ ⟨7, hc⟩ = some Board.new.current_player ∧
      (∀ i j : Fin 15, ¬(i.val = 7 ∧ j.val = 7) →
        (Board.make_move Board.new 7 7).2.cells i j = Board.new.cells i j) ∧
      (Board.make_move Board.new 7 7).2.current_player = Board.new.current_player.other) ∧
    (Board.make_move Board.new 20 20).2 = Board.new :=
  ⟨(board_move_frame Board.new 7 7).1 rfl,
    (board_move_frame Board.new 20 20).2 _ rfl⟩

/-- C10: the board operations are total over arbitrary numeric input — any
out-of-range coordinates to `Board::make_move` yield the out-of-bounds error
with the board untouched, and the guarded read `cellAt` (through which every
computed index of `check_winner` and `evaluate_position` goes) returns
`none` outside the 0..15 range instead of an out-of-range access. -/
theorem board_index_guards :
    (∀ (b : Board) (row col : Nat), 15 ≤ row ∨ 15 ≤ col →
      (∃ s, (Board.make_move b row col).1 = .error (.InvalidPosition s)) ∧
      (Board.make_move b row col).2 = b) ∧
    (∀ (b : Board) (r c : Int), ¬ (0 ≤ r ∧ r < 15 ∧ 0 ≤ c ∧ c < 15) →
      cellAt b r c = none) := by
  constructor
  · intro b row col h
    unfold Board.make_move
    rw [dif_pos h]
    exact ⟨⟨_, rfl⟩, rfl⟩
  · intro b r c h
    unfold cellAt
    rw [dif_neg h]

/-- Witness for `board_index_guards` at row 99 and at the signed coordinate
(-1, 7). -/
theorem board_index_guards_witness :
    (∃ s, (Board.make_move Board.new 99 0).1 = .error (.InvalidPosition s)) ∧
    (Board.make_move Board.new 99 0).2 = Board.new ∧
    cellAt Board.new (-1) 7 = none :=
  ⟨(board_index_guards.1 Board.new 99 0 (Or.inl (by norm_num))).1,
    (board_index_guards.1 Board.new 99 0 (Or.inl (by norm_num))).2,
    board_index_guards.2 Board.new (-1) 7 (by decide)⟩

/-- C7: with two active actors (two humans, or one human and the AI bound),
a move submitted by the role not holding the turn is rejected with the
not-your-turn error, with the whole coordinator state (in particular every
board cell and `current_player`) unchanged and nothing broadcast. -/
theorem game_not_your_turn (g : Game) (p : PlayerRole) (row col : Nat)
    (h2 : twoActors g) (hp : g.board.current_player ≠ p) :
    (Game.make_move g p row col).1 = .error (.InvalidInput "不是你的回合") ∧
    (Game.make_move g p row col).2.1.board = g.board ∧
    (Game.make_move g p row col).2.1 = g ∧
    (Game.make_move g p row col).2.2 = [] := by
  have hguard : ¬ (g.numPlayers < 2 ∧ g.ai_player = none) := by
    rcases h2 with h | ⟨h, hai⟩
    · intro hcon
      omega
    · intro hcon
      exact hai hcon.2
  unfold Game.make_move
  rw [if_neg hguard, if_pos hp]
  exact ⟨rfl, rfl, rfl, rfl⟩

/-- Witness for `game_not_your_turn`: White submits on a fresh two-player
table where Black holds the turn. -/
theorem game_not_your_turn_witness :
    (Game.make_move freshGame PlayerRole.White 0 0).1
      = .error (.InvalidInput "不是你的回合") ∧
    (Game.make_move freshGame PlayerRole.White 0 0).2.1.board = freshGame.board :=
  ⟨(game_not_your_turn freshGame PlayerRole.White 0 0 (Or.inl (by decide)) (by decide)).1,
    (game_not_your_turn freshGame PlayerRole.White 0 0 (Or.inl (by decide)) (by decide)).2.1⟩

theorem game_over_broadcast_aux (g : Game) (p : PlayerRole) (row col : Nat)
    (res : Except GameError Unit) (g2 : Game) (evs : List GameMessage)
    (heq : Game.make_move g p row col = (res, g2, evs)) (w : PlayerRole)
    (hok : res = .ok ()) (hw : g2.board.check_winner = some w) :
    GameMessage.GameOver (some w) ∈ evs := by
  unfold Game.make_move at heq
  split at heq
  · injection heq with e1 e23
    injection e23 with e2 e3
    subst e1
    exact Except.noConfusion hok
  · split at heq
    · injection heq with e1 e23
      injection e23 with e2 e3
      subst e1
      exact Except.noConfusion hok
    · split at heq
      · injection heq with e1 e23
        injection e23 with e2 e3
        subst e1
        exact Except.noConfusion hok
      · rename_i b1 hwin
        split at heq
        · rename_i w1 hw1
          injection heq with e1 e23
          injection e23 with e2 e3
          subst e2
          subst e3
          dsimp at hw
          rw [hw1] at hw
          have hww : w1 = w := Option.some.inj hw
          subst hww
          simp
        · rename_i hw1
          split at heq
          · injection heq with e1 e23
            injection e23 with e2 e3
            subst e2
            subst e3
            dsimp at hw
            rw [hw1] at hw
            exact Option.noConfusion hw
          · split at heq
            · injection heq with e1 e23
              injection e23 with e2 e3
              subst e2
              subst e3
              dsimp at hw
              rw [hw1] at hw
              exact Option.noConfusion hw
            · rename_i ai hai
              split at heq
              · injection heq with e1 e23
                injection e23 with e2 e3
                subst e2
                subst e3
                dsimp at hw
                rw [hw1] at hw
                exact Option.noConfusion hw
              · rename_i r2 c2 hai2
                split at heq
                · injection heq with e1 e23
                  injection e23 with e2 e3
                  subst e1
                  exact Except.noConfusion hok
                · rename_i b2 hb2
                  split at heq
                  · rename_i w2 hw2
                    injection heq with e1 e23
                    injection e23 with e2 e3
                    subst e2
                    subst e3
                    dsimp at hw
                    rw [hw2] at hw
                    have hww : w2 = w := Option.some.inj hw
                    subst hww
                    simp
                  · rename_i hw2
                    split at heq
                    · injection heq with e1 e23
                      injection e23 with e2 e3
                      subst e2
                      subst e3
                      dsimp at hw
                      rw [hw2] at hw
                      exact Option.noConfusion hw
                    · injection heq with e1 e23
                      injection e23 with e2 e3
                      subst e2
                      subst e3
                      dsimp at hw
                      rw [hw2] at hw
                      exact Option.noConfusion hw

theorem game_draw_broadcast_aux (g : Game) (p : PlayerRole) (row col : Nat)
    (res : Except GameError Unit) (g2 : Game) (evs : List GameMessage)
    (heq : Game.make_move g p row col = (res, g2, evs))
    (hok : res = .ok ()) (hw : g2.board.check_winner = none)
    (hf : g2.board.is_full = true) :
    GameMessage.GameOver none ∈ evs := by
  unfold Game.make_move at heq
  split at heq
  · injection heq with e1 e23
    injection e23 with e2 e3
    subst e1
    exact Except.noConfusion hok
  · split at heq
    · injection heq with e1 e23
      injection e23 with e2 e3
      subst e1
      exact Except.noConfusion hok
    · split at heq
      · injection heq with e1 e23
        injection e23 with e2 e3
        subst e1
        exact Except.noConfusion hok
      · rename_i b1 hwin
        split at heq
        · rename_i w1 hw1
          injection heq with e1 e23
          injection e23 with e2 e3
          subst e2
          subst e3
          dsimp at hw
          rw [hw1] at hw
          exact Option.noConfusion hw
        · rename_i hw1
          split at heq
          · injection heq with e1 e23
            injection e23 with e2 e3
            subst e2
            subst e3
            simp
          · rename_i hf1
            split at heq
            · injection heq with e1 e23
              injection e23 with e2 e3
              subst e2
              subst e3
              dsimp at hf
              exact absurd hf hf1
            · rename_i ai hai
              split at heq
              · injection heq with e1 e23
                injection e23 with e2 e3
                subst e2
                subst e3
                dsimp at hf
                exact absurd hf hf1
              · rename_i r2 c2 hai2
                split at heq
                · injection heq with e1 e23
                  injection e23 with e2 e3
                  subst e1
                  exact Except.noConfusion hok
                · rename_i b2 hb2
                  split at heq
                  · rename_i w2 hw2
                    injection heq with e1 e23
                    injection e23 with e2 e3
                    subst e2
                    subst e3
                    dsimp at hw
                    rw [hw2] at hw
                    exact Option.noConfusion hw
                  · rename_i hw2
                    split at heq
                    · injection heq with e1 e23
                      injection e23 with e2 e3
                      subst e2
                      subst e3
                      simp
                    · rename_i hf2
                      injection heq with e1 e23
                      injection e23 with e2 e3
                      subst e2
                      subst e3
                      dsimp at hf
                      exact absurd hf hf2

/-- C8 (amended): when a submitted move succeeds and the resulting board is
terminal, the coordinator broadcasts a game-over event — `GameOver(winner)`
when the win detector reports a winner, `GameOver(none)` when the board is
full.  The coordinator has no `Finished` state, however: nothing records
that the game ended, so a later submission is validated only by the
player-count, turn and cell rules and can be accepted and applied (see the
counterexample). -/
theorem game_terminal_broadcast (g : Game) (p : PlayerRole) (row col : Nat) :
    (∀ w : PlayerRole, (Game.make_move g p row col).1 = .ok () →
      (Game.make_move g p row col).2.1.board.check_winner = some w →
      GameMessage.GameOver (some w) ∈ (Game.make_move g p row col).2.2) ∧
    ((Game.make_move g p row col).1 = .ok () →
      (Game.make_move g p row col).2.1.board.check_winner = none →
      (Game.make_move g p row col).2.1.board.is_full = true →
      GameMessage.GameOver none ∈ (Game.make_move g p row col).2.2) :=
  ⟨fun w hok hw => game_over_broadcast_aux g p row col _ _ _ rfl w hok hw,
    fun hok hw hf => game_draw_broadcast_aux g p row col _ _ _ rfl hok hw hf⟩

set_option maxRecDepth 10000 in
/-- C8 counterexample: Black's winning move on `preWinGame` broadcasts
`GameOver(Black)`, yet the next submission by White is still accepted and
applied to the board — there is no `Finished` state blocking it. -/
theorem game_accepts_moves_after_win :
    (Game.make_move preWinGame PlayerRole.Black 0 4).1 = .ok () ∧
    GameMessage.GameOver (some PlayerRole.Black)
      ∈ (Game.make_move preWinGame PlayerRole.Black 0 4).2.2 ∧
    (Game.make_move (Game.make_move preWinGame PlayerRole.Black 0 4).2.1
      PlayerRole.White 2 0).1 = .ok () ∧
    (Game.make_move (Game.make_move preWinGame PlayerRole.Black 0 4).2.1
        PlayerRole.White 2 0).2.1.board
      ≠ (Game.make_move preWinGame PlayerRole.Black 0 4).2.1.board := by
  exact ⟨by decide, by decide, by decide, by decide⟩

set_option maxRecDepth 10000 in
/-- Witness for `game_terminal_broadcast`: Black's winning move at (0,4). -/
theorem game_terminal_broadcast_witness :
    GameMessage.GameOver (some PlayerRole.Black)
      ∈ (Game.make_move preWinGame PlayerRole.Black 0 4).2.2 :=
  (game_terminal_broadcast preWinGame PlayerRole.Black 0 4).1 PlayerRole.Black
    (by decide) (by decide)

/-- C9: removing a participant leaves a state where either no human remains
— and then the board is the freshly constructed one (every cell empty, Black
to move) and the AI controller is cleared — or some human remains and both
the board and the AI binding are untouched. -/
theorem game_remove_player_reset (g : Game) (p : PlayerRole) :
    ((Game.remove_player g p).1.numPlayers = 0 →
      (Game.remove_player g p).1.board = Board.new ∧
      (Game.remove_player g p).1.ai_player = none) ∧
    ((Game.remove_player g p).1.numPlayers ≠ 0 →
      (Game.remove_player g p).1.board = g.board ∧
      (Game.remove_player g p).1.ai_player = g.ai_player) ∧
    (∀ i j : Fin 15, Board.new.cells i j = none) ∧
    Board.new.current_player = .Black := by
  unfold Game.remove_player
  by_cases h : numPlayersFun (fun q => if q = p then false else g.players q) = 0
  · rw [if_pos h]
    exact ⟨fun _ => ⟨rfl, rfl⟩, fun hn => absurd h hn, fun i j => rfl, rfl⟩
  · rw [if_neg h]
    exact ⟨fun h0 => absurd h0 h, fun _ => ⟨rfl, rfl⟩, fun i j => rfl, rfl⟩

/-- Witness for `game_remove_player_reset`: removing the lone human resets
the table; removing one of two humans leaves board and AI binding alone. -/
theorem game_remove_player_reset_witness :
    ((Game.remove_player soloGame PlayerRole.Black).1.board = Board.new ∧
      (Game.remove_player soloGame PlayerRole.Black).1.ai_player = none) ∧
    ((Game.remove_player freshGame PlayerRole.Black).1.board = freshGame.board ∧
      (Game.remove_player freshGame PlayerRole.Black).1.ai_player = freshGame.ai_player) :=
  ⟨(game_remove_player_reset soloGame PlayerRole.Black).1 (by decide),
    (game_remove_player_reset freshGame PlayerRole.Black).2.1 (by decide)⟩
